import Mathlib

/-!
Verification of the facturarator invoice pipeline (src/app.py).

The Python source is shallowly embedded: pure helpers (`normalize_name`,
`parse_cfdi`, the PDF-map construction, the package assembly and the
spreadsheet validation ranges) become Lean functions over explicit data.
Python `float` arithmetic is modelled by exact rationals (ℚ); Python
`dict`s by association lists with insert-overwrite semantics; the
ElementTree XML API by a small element-tree type with the find
operations the source uses.
-/

set_option autoImplicit false

namespace Facturarator

/-- ASCII lowercase-alphanumeric test: the character class `[0-9a-z]`
complementing the regex `[^0-9a-z]+` used in `normalize_name`
(src/app.py line 40). -/
def isAlnumLower (c : Char) : Bool :=
  (48 ≤ c.toNat && c.toNat ≤ 57) || (97 ≤ c.toNat && c.toNat ≤ 122)

/-- ASCII digit test (used by the numeric-string and date parsers). -/
def isDigitC (c : Char) : Bool :=
  48 ≤ c.toNat && c.toNat ≤ 57

/-- Model of the whitespace class stripped by Python `str.strip()`:
space, tab, newline, carriage return, vertical tab, form feed.  (Python
also strips rarer Unicode space characters; none can occur in the
normalized alphabet the proofs rely on.) -/
def isPyWs (c : Char) : Bool :=
  c.toNat == 32 || c.toNat == 9 || c.toNat == 10 ||
  c.toNat == 13 || c.toNat == 11 || c.toNat == 12

/-- Model of Python `str.lower()` on one character: the ASCII range plus
a small table of Latin-1 capitals; identity elsewhere.  (CPython lowers
per the full Unicode table; the pipeline only ever relies on the ASCII
part, since every non-ASCII character is later collapsed to `'-'`.) -/
def pyLowerChar (c : Char) : Char :=
  if 65 ≤ c.toNat && c.toNat ≤ 90 then Char.ofNat (c.toNat + 32)
  else if c = 'Å' then 'å'
  else if c = 'É' then 'é'
  else if c = 'Ñ' then 'ñ'
  else c

/-- Model of `unicodedata.normalize("NFKC", s)` on one character:
identity on ASCII and on precomposed letters such as `'å'`, with a few
representative compatibility decompositions.  The full Unicode NFKC
tables (and multi-character canonical composition) are outside the
model, but real NFKC is the identity on the alphabet `[0-9a-z-]` that
`normalize_name` outputs, which is all the theorems below rely on. -/
def nfkcChar (c : Char) : List Char :=
  if c = 'ﬁ' then ['f', 'i']
  else if c = Char.ofNat 0x212B then [Char.ofNat 0xC5]
  else if c = '²' then ['2']
  else [c]

/-- NFKC model applied character-wise to a string (as a char list). -/
def nfkcList : List Char → List Char
  | [] => []
  | c :: t => nfkcChar c ++ nfkcList t

/-- Model of `os.path.basename` (posix): the segment after the last
`'/'`.  Folding left and resetting at every separator reproduces
`p[p.rfind('/')+1:]`. -/
def basenameC (l : List Char) : List Char :=
  l.foldl (fun acc c => if c == '/' then [] else acc ++ [c]) []

/-- Drop the maximal trailing run of characters satisfying `p`. -/
def dropEndWhile (p : Char → Bool) : List Char → List Char
  | [] => []
  | c :: rest =>
    let r := dropEndWhile p rest
    if r.isEmpty && p c then [] else c :: r

/-- Model of Python `str.strip(class)`: drop the leading and trailing
runs of characters satisfying `p`. -/
def pyStripC (p : Char → Bool) (l : List Char) : List Char :=
  dropEndWhile p (l.dropWhile p)

/-- Model of the stem part of `os.path.splitext` (posix): split off the
suffix starting at the last `'.'` of the final path segment, unless that
dot lies in the segment's leading run of dots (so `".bashrc"` has no
extension). -/
def splitextStemC (l : List Char) : List Char :=
  let name := basenameC l
  let dir := l.take (l.length - name.length)
  let dots := name.takeWhile (fun c => c == '.')
  let r := name.dropWhile (fun c => c == '.')
  if r.contains '.' then dir ++ dots ++ (dropEndWhile (fun c => !(c == '.')) r).dropLast
  else l

mutual

/-- First state of `re.sub(r"[^0-9a-z]+", "-", s)`: copy alphanumeric
characters; on the first character of a non-alphanumeric run emit one
`'-'` and switch to `collapseSkip` for the rest of the run. -/
def collapseGo : List Char → List Char
  | [] => []
  | c :: rest =>
    if isAlnumLower c then c :: collapseGo rest else '-' :: collapseSkip rest

/-- Second state of the run-collapsing substitution: the current
non-alphanumeric run has already produced its `'-'`; drop further run
characters and return to `collapseGo` at the next alphanumeric. -/
def collapseSkip : List Char → List Char
  | [] => []
  | c :: rest =>
    if isAlnumLower c then c :: collapseGo rest else collapseSkip rest

end

/-- The character-list pipeline of `normalize_name` (src/app.py lines
33-41): basename, strip one extension, NFKC, lower-case then strip
whitespace, collapse non-alphanumeric runs to single dashes, trim
leading/trailing dashes. -/
def normPipe (l : List Char) : List Char :=
  pyStripC (fun c => c == '-')
    (collapseGo (pyStripC isPyWs ((nfkcList (splitextStemC (basenameC l))).map pyLowerChar)))

/-- Embedding of `normalize_name` (src/app.py lines 21-42).  The
`if name = ""` guard models Python's `if not name: return ""`. -/
def normalize_name (name : String) : String :=
  if name = "" then ""
  else String.mk (normPipe name.toList)

/-- Model of Python's `x or default` on strings: the empty string is
falsy. -/
def pyOr (s d : String) : String :=
  if s = "" then d else s

/-- String-level basename wrapper. -/
def basenameStr (s : String) : String :=
  String.mk (basenameC s.toList)

/-- String-level extension-stripping wrapper
(`os.path.splitext(...)[0]`). -/
def splitextStemStr (s : String) : String :=
  String.mk (splitextStemC s.toList)

/-- String-level `str.lower()` wrapper. -/
def pyLowerStr (s : String) : String :=
  String.mk (s.toList.map pyLowerChar)

/-- String-level `str.strip()` wrapper. -/
def stripWsStr (s : String) : String :=
  String.mk (pyStripC isPyWs s.toList)

/-- First `n` characters of a string (Python slice `s[:n]`). -/
def strTake (n : Nat) (s : String) : String :=
  String.mk (s.toList.take n)

example : normalize_name "Fåctura 001.pdf" = "f-ctura-001" := by decide
example : normalize_name "factura-001.PDF" = "factura-001" := by decide
example : normalize_name "Factura 03 (final).pdf" = "factura-03-final" := by decide
example : normalize_name "a/b/Factura: 7 .XML" = "factura-7" := by decide
example : normalize_name "" = "" := by decide
example : normalize_name ".bashrc" = "bashrc" := by decide

/-! ## Substring search (Python `in` on strings) -/

/-- Does `l` start with `p`?  (Model of Python `str.startswith`, used
only to build the substring test.) -/
def hasPre : List Char → List Char → Bool
  | [], _ => true
  | _ :: _, [] => false
  | p :: ps, c :: cs => p == c && hasPre ps cs

/-- Does `l` contain `pat` as a contiguous substring?  Model of Python
`pat in l` on strings (the empty pattern is contained everywhere). -/
def hasSub (pat : List Char) : List Char → Bool
  | [] => hasPre pat []
  | c :: t => hasPre pat (c :: t) || hasSub pat t

/-- String-level substring test: `strContainsSub s pat` models the
Python expression `pat in s`. -/
def strContainsSub (s pat : String) : Bool :=
  hasSub pat.toList s.toList

/-! ## Numeric and date string parsing -/

/-- Digit list to natural number (most significant first). -/
def digitsToNat (l : List Char) : Nat :=
  l.foldl (fun a c => a * 10 + (c.toNat - 48)) 0

/-- Model of Python `float(s)` on decimal literals, returning an exact
rational.  Accepts optional surrounding whitespace, an optional sign,
`digits[.digits]` or `.digits`, and an optional exponent part.  The
source accumulates in IEEE-754 double precision; the model computes the
same sums exactly over ℚ.  Python's `inf`/`nan` spellings and digit
underscores are outside the model and treated as unparsable. -/
def pyFloat (s : String) : Option ℚ :=
  let cs0 := pyStripC isPyWs s.toList
  let sgnNeg : Bool := match cs0 with | '-' :: _ => true | _ => false
  let cs := match cs0 with | '+' :: t => t | '-' :: t => t | _ => cs0
  let ip := cs.takeWhile isDigitC
  let cs1 := cs.dropWhile isDigitC
  let fp := match cs1 with | '.' :: t => t.takeWhile isDigitC | _ => []
  let cs2 := match cs1 with | '.' :: t => t.dropWhile isDigitC | _ => cs1
  if ip.isEmpty && fp.isEmpty then none
  else
    let mant0 : ℚ := (digitsToNat (ip ++ fp) : ℚ) / ((10 : ℚ) ^ fp.length)
    let mant : ℚ := if sgnNeg then -mant0 else mant0
    match cs2 with
    | [] => some mant
    | e :: t =>
      if e == 'e' || e == 'E' then
        let expNeg : Bool := match t with | '-' :: _ => true | _ => false
        let t1 := match t with | '+' :: u => u | '-' :: u => u | _ => t
        let ed := t1.takeWhile isDigitC
        let rest := t1.dropWhile isDigitC
        if ed.isEmpty || !rest.isEmpty then none
        else some (if expNeg then mant / ((10 : ℚ) ^ digitsToNat ed)
                   else mant * ((10 : ℚ) ^ digitsToNat ed))
      else none

/-- Days per month, with leap years (used by the date validation that
`datetime.strptime` performs). -/
def daysInMonth (y m : Nat) : Nat :=
  if m = 2 then
    if y % 4 = 0 && (y % 100 ≠ 0 || y % 400 = 0) then 29 else 28
  else if m = 4 || m = 6 || m = 9 || m = 11 then 30
  else 31

/-- Model of `datetime.strptime(s, "%Y-%m-%d")`: a four-digit year, a
one/two-digit month and day separated by single dashes, the whole string
consumed, and the calendar validity checks `datetime` itself performs.
Returns `(year, month, day)`. -/
def parseYmd (s : String) : Option (Nat × Nat × Nat) :=
  match s.toList.splitOn '-' with
  | [ys, ms, ds] =>
    if ys.length = 4 && ys.all isDigitC &&
       (ms.length = 1 || ms.length = 2) && ms.all isDigitC &&
       (ds.length = 1 || ds.length = 2) && ds.all isDigitC then
      let y := digitsToNat ys
      let m := digitsToNat ms
      let d := digitsToNat ds
      if 1 ≤ m && m ≤ 12 && 1 ≤ d && d ≤ daysInMonth y m then some (y, m, d)
      else none
    else none
  | _ => none

/-! ## XML element model (xml.etree.ElementTree) -/

/-- An ElementTree element: the qualified tag string (Clark notation
`\x7buri\x7dlocal` as ElementTree stores it), the attribute dictionary in
document order, and the child elements in document order. -/
structure XmlElem where
  tag : String
  attrs : List (String × String)
  children : List XmlElem

/-- Qualified tag in ElementTree's Clark notation. -/
def qual (uri name : String) : String :=
  "\x7b" ++ uri ++ "\x7d" ++ name

/-- Attribute lookup, `elem.get(key)`: `none` models Python `None`. -/
def attrGet (e : XmlElem) (k : String) : Option String :=
  (e.attrs.find? (fun kv => kv.1 == k)).map (fun kv => kv.2)

/-- Attribute lookup with default, `elem.get(key, d)`. -/
def attrGetD (e : XmlElem) (k d : String) : String :=
  (attrGet e k).getD d

mutual

/-- All proper descendants of an element in document (preorder)
order — the elements `elem.find(".//tag")` searches. -/
def descendants : XmlElem → List XmlElem
  | .mk _ _ children => descList children

/-- Preorder listing of a forest: each root followed by its own
descendants, then the rest of the forest. -/
def descList : List XmlElem → List XmlElem
  | [] => []
  | c :: rest => c :: (descendants c ++ descList rest)

end

/-- Model of `root.find(".//tag")`: first matching proper descendant in
document order. -/
def findDesc (root : XmlElem) (tag : String) : Option XmlElem :=
  (descendants root).find? (fun e => e.tag == tag)

/-- Model of `root.find("./tag")`: first matching direct child. -/
def findChild (root : XmlElem) (tag : String) : Option XmlElem :=
  root.children.find? (fun e => e.tag == tag)

/-! ## parse_cfdi (src/app.py lines 48-113) -/

/-- The namespace table of `parse_cfdi` (src/app.py lines 53-59),
verbatim: for each CFDI version a primary URI and an `_alt` spelling
(`gobmx` is the known misspelling of `gob.mx`). -/
def nsTable : List (String × String) :=
  [("cfdi33", "http://www.sat.gobmx/cfd/3"),
   ("cfdi33_alt", "http://www.sat.gob.mx/cfd/3"),
   ("cfdi40", "http://www.sat.gob.mx/cfd/4"),
   ("cfdi40_alt", "http://www.sat.gobmx/cfd/4"),
   ("tfd", "http://www.sat.gob.mx/TimbreFiscalDigital")]

/-- The TimbreFiscalDigital namespace URI. -/
def tfdUri : String := "http://www.sat.gob.mx/TimbreFiscalDigital"

/-- Version detection (src/app.py line 64): `"cfd/4" in tag or "cfd/4"
in json.dumps(root.attrib)`.  Since `"cfd/4"` contains no quote, brace,
comma or colon and `json.dumps` does not escape `'/'`, the substring
occurs in the serialized dictionary exactly when it occurs in some
attribute key or value. -/
def detectV4 (root : XmlElem) : Bool :=
  strContainsSub root.tag "cfd/4" ||
  root.attrs.any (fun kv => strContainsSub kv.1 "cfd/4" || strContainsSub kv.2 "cfd/4")

/-- The namespace key chosen by `parse_cfdi`. -/
def ckeyOf (root : XmlElem) : String :=
  if detectV4 root then "cfdi40" else "cfdi33"

/-- The single namespace URI used for all `cfdi:` lookups:
`ns.get(ckey, ns["cfdi40"])` (src/app.py line 65).  Note the `_alt`
entries of `nsTable` are never selected. -/
def cnsOf (root : XmlElem) : String :=
  (((nsTable.find? (fun kv => kv.1 == ckeyOf root)).map (fun kv => kv.2))).getD
    "http://www.sat.gob.mx/cfd/4"

/-- The elements returned by `fa(".//cfdi:Traslados/cfdi:Traslado")`:
for each `Traslados` descendant in document order, its `Traslado`
children in order. -/
def trasladoElems (root : XmlElem) : List XmlElem :=
  let c := cnsOf root
  ((descendants root).filter (fun e => e.tag == qual c "Traslados")).flatMap
    (fun e => e.children.filter (fun ch => ch.tag == qual c "Traslado"))

/-- Does a `Traslado` entry carry the IVA tax code?  Models
`t.get("Impuesto") in ("002", "2")` (src/app.py line 99). -/
def trasIsIva (t : XmlElem) : Bool :=
  attrGet t "Impuesto" == some "002" || attrGet t "Impuesto" == some "2"

/-- The rational amount an entry contributes if parsable: models
`float(t.get("Importe", "0") or "0")`, with `none` for the ValueError
case that the source's `except` swallows. -/
def importeVal (t : XmlElem) : Option ℚ :=
  pyFloat (pyOr (attrGetD t "Importe" "0") "0")

/-- The IVA accumulation loop of `parse_cfdi` (src/app.py lines
97-103): fold over the entries in document order, adding the parsed
`Importe` of entries whose `Impuesto` is `"002"` or `"2"`, skipping
unparsable amounts. -/
def ivaSumElems (ts : List XmlElem) : ℚ :=
  ts.foldl
    (fun acc t =>
      if trasIsIva t then
        match importeVal t with
        | some v => acc + v
        | none => acc
      else acc) 0

/-- The canonical record `parse_cfdi` returns (src/app.py lines
105-113).  `Fecha` is the `(y, m, d)` date used only for sorting;
`totalComprobante` stays a string exactly as in the source. -/
structure CfdiRecord where
  uuid : String
  rfcEmisor : String
  totalImpuestos : ℚ
  totalComprobante : String
  currency : String
  expenseType : String
  fecha : Nat × Nat × Nat
deriving Repr, DecidableEq

/-- Embedding of `parse_cfdi` on an already-parsed element tree
(`ET.fromstring` itself is the XML library; its failure is modelled at
the call site in the upload loop).  Follows src/app.py lines 48-113
step by step. -/
def parse_cfdi (root : XmlElem) : CfdiRecord :=
  let cns := cnsOf root
  let uuid :=
    match findDesc root (qual tfdUri "TimbreFiscalDigital") with
    | some tfd => pyOr (attrGetD tfd "UUID" "") ""
    | none => ""
  let rfc :=
    match findChild root (qual cns "Emisor") with
    | some em => pyOr (attrGetD em "Rfc" "") (pyOr (attrGetD em "RfcEmisor" "") "")
    | none => ""
  let fechaRaw := strTake 10 (pyOr (attrGetD root "Fecha" "") "")
  let fecha :=
    match parseYmd fechaRaw with
    | some d => d
    | none => (1970, 1, 1)
  { uuid := uuid
    rfcEmisor := rfc
    totalImpuestos := ivaSumElems (trasladoElems root)
    totalComprobante := pyOr (attrGetD root "Total" "") "0"
    currency := pyOr (attrGetD root "Moneda" "") "MXN"
    expenseType := "Miscellaneous"
    fecha := fecha }

/-! ## Concrete documents used as evaluation inputs -/

/-- Canonical CFDI 3.3 namespace URI (the official spelling). -/
def uri33canonical : String := "http://www.sat.gob.mx/cfd/3"

/-- Misspelled CFDI 3.3 namespace variant (`gobmx`). -/
def uri33misspelled : String := "http://www.sat.gobmx/cfd/3"

/-- Canonical CFDI 4.0 namespace URI. -/
def uri40canonical : String := "http://www.sat.gob.mx/cfd/4"

/-- Misspelled CFDI 4.0 namespace variant (`gobmx`). -/
def uri40misspelled : String := "http://www.sat.gobmx/cfd/4"

/-- A complete invoice body under namespace `u`: an `Emisor` with
`Rfc="AAA010101AAA"`, an IVA `Traslado` entry (`Impuesto="002"`,
`Importe="16.00"`) inside `Impuestos/Traslados`, and a digital stamp
with a 36-character UUID. -/
def cfdiBody (u : String) : XmlElem :=
  { tag := qual u "Comprobante"
    attrs := [("Fecha", "2024-03-01T10:00:00"), ("Total", "116.00"), ("Moneda", "MXN")]
    children :=
      [{ tag := qual u "Emisor"
         attrs := [("Rfc", "AAA010101AAA")]
         children := [] },
       { tag := qual u "Impuestos"
         attrs := [("TotalImpuestosTrasladados", "16.00")]
         children :=
           [{ tag := qual u "Traslados"
              attrs := []
              children :=
                [{ tag := qual u "Traslado"
                   attrs := [("Impuesto", "002"), ("Importe", "16.00")]
                   children := [] }] }] },
       { tag := qual u "Complemento"
         attrs := []
         children :=
           [{ tag := qual tfdUri "TimbreFiscalDigital"
              attrs := [("UUID", "12345678-ABCD-ABCD-ABCD-123456789012")]
              children := [] }] }] }

/-- CFDI 3.3 document in the canonical namespace spelling. -/
def doc33canonical : XmlElem := cfdiBody uri33canonical

/-- CFDI 3.3 document in the misspelled namespace spelling (the one
`parse_cfdi` actually uses for its 3.3 lookups). -/
def doc33misspelled : XmlElem := cfdiBody uri33misspelled

/-- CFDI 4.0 document in the canonical namespace spelling. -/
def doc40canonical : XmlElem := cfdiBody uri40canonical

/-- CFDI 4.0 document in the misspelled namespace spelling. -/
def doc40misspelled : XmlElem := cfdiBody uri40misspelled

example : detectV4 doc33canonical = false := by decide
example : detectV4 doc40misspelled = true := by decide
example : cnsOf doc33canonical = uri33misspelled := by decide
example : cnsOf doc40misspelled = uri40canonical := by decide
example : (parse_cfdi doc33canonical).rfcEmisor = "" := by decide
example : (parse_cfdi doc33canonical).totalImpuestos = 0 := by decide
example : (parse_cfdi doc33canonical).uuid = "12345678-ABCD-ABCD-ABCD-123456789012" := by decide
example : (parse_cfdi doc33misspelled).rfcEmisor = "AAA010101AAA" := by decide
example : (parse_cfdi doc33misspelled).totalImpuestos = 16 := by
  have h : (parse_cfdi doc33misspelled).totalImpuestos = (0 : ℚ) + 1600 / 10 ^ 2 := rfl
  rw [h]
  norm_num
example : (parse_cfdi doc40canonical).rfcEmisor = "AAA010101AAA" := by decide
example : (parse_cfdi doc40misspelled).rfcEmisor = "" := by decide
example : (parse_cfdi doc33misspelled).fecha = (2024, 3, 1) := by decide
example : (parse_cfdi doc33misspelled).totalComprobante = "116.00" := by decide

/-! ## The XML upload loop (src/app.py lines 296-321) -/

/-- The `Total_Comprobante` cell value: the success path stores the
document's total attribute as a string, the parse-error path stores the
float `0.0` — the source keeps both in one column, modelled as a sum. -/
inductive TotalVal where
  | strVal (s : String)
  | numVal (q : ℚ)
deriving Repr, DecidableEq

/-- One row of the in-memory table built by the upload loop: the
parsed fields plus the filename/provenance columns, with `notas` the
optional parse-error diagnostic. -/
structure UploadRow where
  xmlFileName : String
  xmlStem : String
  xmlStemRaw : String
  uuid : String
  rfcEmisor : String
  totalImpuestos : ℚ
  totalComprobante : TotalVal
  currency : String
  expenseType : String
  fecha : Nat × Nat × Nat
  notas : Option String
deriving Repr, DecidableEq

/-- An uploaded XML payload: `ET.fromstring` either yields an element
tree or raises (malformed markup), modelled as `Except` with the
exception text. -/
def XmlPayload : Type := String × Except String XmlElem

/-- The body of the upload loop for one file (src/app.py lines
299-321): on success the parsed record plus filename columns, on an
exception the retained error row with `Notas` set, zeroed numerics,
empty extracted strings, `"MXN"`/`"Miscellaneous"` defaults and the
epoch date. -/
def processOne (f : XmlPayload) : UploadRow :=
  match f.2 with
  | .ok root =>
    let r := parse_cfdi root
    { xmlFileName := f.1
      xmlStem := normalize_name f.1
      xmlStemRaw := splitextStemStr (basenameStr f.1)
      uuid := r.uuid
      rfcEmisor := r.rfcEmisor
      totalImpuestos := r.totalImpuestos
      totalComprobante := .strVal r.totalComprobante
      currency := r.currency
      expenseType := r.expenseType
      fecha := r.fecha
      notas := none }
  | .error e =>
    { xmlFileName := f.1
      xmlStem := normalize_name f.1
      xmlStemRaw := splitextStemStr (basenameStr f.1)
      uuid := ""
      rfcEmisor := ""
      totalImpuestos := 0
      totalComprobante := .numVal 0
      currency := "MXN"
      expenseType := "Miscellaneous"
      fecha := (1970, 1, 1)
      notas := some ("Parse error: " ++ e) }

/-- The whole upload loop: every file yields exactly one retained row,
independently of the others. -/
def processBatch (b : List XmlPayload) : List UploadRow :=
  b.map processOne

/-! ## PDF dictionaries (src/app.py lines 331-338 and 395-402) -/

/-- Python `dict` assignment `m[k] = v`: overwrite the value at an
existing key in place, else append the new binding (insertion order is
preserved, as `dict` iteration does). -/
def dictInsert {β : Type} : List (String × β) → String → β → List (String × β)
  | [], k, v => [(k, v)]
  | (a, b) :: t, k, v => if a == k then (k, v) :: t else (a, b) :: dictInsert t k v

/-- Python `m.get(k)` / `k in m` combined: the bound value, if any. -/
def dictGet? {β : Type} (m : List (String × β)) (k : String) : Option β :=
  (m.find? (fun kv => kv.1 == k)).map (fun kv => kv.2)

/-- The `pdf_map` construction: `for p in pdf_up: pdf_map[normalize_name(p.name)]
= p.getvalue()` — uploads are iterated in their given order.  Upload
bytes are modelled as opaque strings. -/
def buildPdfMap (ups : List (String × String)) : List (String × String) :=
  ups.foldl (fun m p => dictInsert m (normalize_name p.1) p.2) []

/-- The parallel `pdf_name_lookup` map: normalized stem to the
original (basename) PDF file name, built by the same loop. -/
def buildPdfNameLookup (ups : List (String × String)) : List (String × String) :=
  ups.foldl (fun m p => dictInsert m (normalize_name p.1) (basenameStr p.1)) []

/-- The matcher `pdf_name_for_row` (src/app.py lines 341-352): exact
normalized-stem hit first, then the UUID / first-8-characters substring
fallback over the lookup entries in insertion order, else `""`. -/
def pdfNameForRow (ups : List (String × String)) (nstem uuid : String) : String :=
  let pdfMap := buildPdfMap ups
  let lookup := buildPdfNameLookup ups
  if (dictGet? pdfMap nstem).isSome then (dictGet? lookup nstem).getD ""
  else if uuid ≠ "" then
    match lookup.find? (fun kv =>
        strContainsSub kv.1 uuid || strContainsSub kv.1 (strTake 8 uuid)) with
    | some kv => kv.2
    | none => ""
  else ""

/-! ## Package assembly (src/app.py lines 416-454) -/

/-- The row fields the ZIP loop reads: `No.VDR`, `XML_FileName`,
`UUID`. -/
structure PkgRow where
  noVdr : String
  xmlFileName : String
  uuid : String
deriving Repr, DecidableEq

/-- The README manifest written at the archive root (src/app.py lines
446-453). -/
def readmeText : String :=
  "This package contains:\n" ++
  "- SUBMISSION_IVA_FORM.xlsx (Excel to email)\n" ++
  "- PDFs named 01.pdf, 02.pdf, ... (rename rule = No. VDR)\n" ++
  "\n" ++
  "If any warnings were shown in the app, please resolve and rebuild.\n"

/-- One iteration of the ZIP loop (src/app.py lines 423-443) acting on
the accumulated `(entries, missingDetail)` pair: place
`{rownum}.pdf` by normalized stem, else by UUID substring over the map
entries in order, else record the row in the missing-PDF detail. -/
def pkgStep (pdfMap : List (String × String))
    (acc : List (String × String) × List String) (r : PkgRow) :
    List (String × String) × List String :=
  let rownum := stripWsStr (pyOr r.noVdr "")
  let nstem := normalize_name (splitextStemStr (basenameStr r.xmlFileName))
  let uuid := pyLowerStr (pyOr r.uuid "")
  if rownum = "" then acc
  else
    match dictGet? pdfMap nstem with
    | some data => (acc.1 ++ [(rownum ++ ".pdf", data)], acc.2)
    | none =>
      let hit :=
        if uuid ≠ "" then
          pdfMap.find? (fun kv =>
            strContainsSub kv.1 uuid || strContainsSub kv.1 (strTake 8 uuid))
        else none
      match hit with
      | some kv => (acc.1 ++ [(rownum ++ ".pdf", kv.2)], acc.2)
      | none => (acc.1, acc.2 ++ [rownum ++ " (expected stem ~ '" ++ nstem ++ "')"])

/-- The whole flat-ZIP build after the Excel bytes are available
(src/app.py lines 417-454): the spreadsheet entry at the root, the
renamed PDFs per row, the README, plus the missing-PDF warning
details.  There is no guard on the number of uploaded PDFs. -/
def packageEntries (rows : List PkgRow) (ups : List (String × String))
    (xlsxBytes : String) : List (String × String) × List String :=
  let pdfMap := buildPdfMap ups
  let res := rows.foldl (pkgStep pdfMap) ([("SUBMISSION_IVA_FORM.xlsx", xlsxBytes)], [])
  (res.1 ++ [("README.txt", readmeText)], res.2)

/-! ## Spreadsheet validation ranges (src/app.py lines 196-256) -/

/-- A `data_validation` rule kind: a two-value dropdown list or an
exact-length constraint. -/
inductive VRule where
  | listRule (options : List String)
  | lengthEqRule (n : Nat)
deriving Repr, DecidableEq

/-- One `ws.data_validation(first_row, first_col, last_row, last_col,
opts)` call. -/
structure DataValidation where
  firstRow : Nat
  firstCol : Nat
  lastRow : Nat
  lastCol : Nat
  rule : VRule
deriving Repr, DecidableEq

/-- One row of the export DataFrame handed to
`build_submission_excel_from_df` (columns of src/app.py line 197-205;
values irrelevant to the validation geometry). -/
structure ExportRow where
  noVdr : String
  uuid : String
  rfcEmisor : String
  totalImpuestos : ℚ
  totalComprobante : String
  expenseType : String
  currency : String
deriving Repr, DecidableEq

/-- Number of body rows actually written: an empty frame receives one
placeholder row (src/app.py lines 211-212). -/
def excelBodyCount (df : List ExportRow) : Nat :=
  if df.isEmpty then 1 else df.length

/-- Zero-based worksheet row of the last written data row (the table
starts at row index 5, src/app.py line 215). -/
def lastDataRow (df : List ExportRow) : Nat :=
  5 + excelBodyCount df - 1

/-- The three `data_validation` calls of
`build_submission_excel_from_df` (src/app.py lines 236-256): rows
`start .. start + max(len(df), 50)`, on the Type, Currency and UUID
columns. -/
def excelValidations (df : List ExportRow) : List DataValidation :=
  let start := 5
  let last := start + max (excelBodyCount df) 50
  [{ firstRow := start, firstCol := 5, lastRow := last, lastCol := 5
     rule := .listRule ["Miscellaneous", "Gasoline"] },
   { firstRow := start, firstCol := 6, lastRow := last, lastCol := 6
     rule := .listRule ["MXN", "USD"] },
   { firstRow := start, firstCol := 1, lastRow := last, lastCol := 1
     rule := .lengthEqRule 36 }]

/-! ## Claim C10: defaults coalesce empty-string attributes -/

/-- A document whose `Moneda` attribute is present but empty and whose
`Total` attribute is absent. -/
def docEmptyMoneda : XmlElem :=
  { tag := qual uri33misspelled "Comprobante"
    attrs := [("Moneda", ""), ("Fecha", "2024-03-01T10:00:00")]
    children := [] }

/-- C10: a present-but-empty `Moneda` attribute yields the same domain
default `"MXN"` as an absent one, and a present-but-empty `Total`
yields the default `"0"` — the `or` coalescing in src/app.py lines
86-87 treats empty strings like missing attributes. -/
theorem parse_defaults_coalesce_empty (root : XmlElem) :
    ((attrGet root "Moneda" = some "" ∨ attrGet root "Moneda" = none) →
      (parse_cfdi root).currency = "MXN") ∧
    ((attrGet root "Total" = some "" ∨ attrGet root "Total" = none) →
      (parse_cfdi root).totalComprobante = "0") := by
  constructor <;> rintro (h | h) <;> simp [parse_cfdi, attrGetD, pyOr, h]

/-- Witness for C10 at a concrete document with `Moneda=""` present and
`Total` absent. -/
theorem parse_defaults_coalesce_empty_witness :
    (parse_cfdi docEmptyMoneda).currency = "MXN" ∧
    (parse_cfdi docEmptyMoneda).totalComprobante = "0" :=
  ⟨(parse_defaults_coalesce_empty docEmptyMoneda).1 (Or.inl (by decide)),
   (parse_defaults_coalesce_empty docEmptyMoneda).2 (Or.inr (by decide))⟩

/-! ## Claim C5: normalize case/accent behaviour -/

/-- C5 counterexample: `normalize_name` is not accent-insensitive — the
accented `'å'` survives NFKC composed, is not an ASCII letter, and is
collapsed into `'-'`, so the two spellings produce different keys. -/
theorem normalize_accent_counterexample :
    normalize_name "Fåctura 001.pdf" = "f-ctura-001" ∧
    normalize_name "factura-001.PDF" = "factura-001" ∧
    normalize_name "Fåctura 001.pdf" ≠ normalize_name "factura-001.PDF" := by
  decide

/-- C5 amended: `normalize_name` is insensitive to ASCII letter case,
punctuation, spacing and extension differences, but accented letters
are collapsed to `'-'` like punctuation rather than folded to their
base letter. -/
theorem normalize_case_punct_insensitive :
    normalize_name "Factura 001.pdf" = normalize_name "factura-001.PDF" ∧
    normalize_name "FACTURA_001 (v2).PDF" = normalize_name "factura-001-v2.pdf" ∧
    normalize_name "Fåctura 001.pdf" = "f-ctura-001" := by
  decide

/-! ## Claim C8: the upload loop never drops a file -/

/-- C8: parsing never throws past its boundary — the upload loop maps
every payload to exactly one retained row, each row depends only on its
own payload (so one malformed document never disturbs the others), and
a failing payload yields precisely the error row of src/app.py lines
307-321: `Notas` set to the diagnostic, zero numeric fields, empty
extracted strings (`UUID`, `RFC_Emisor`), the `"MXN"`/`"Miscellaneous"`
defaults and the epoch date. -/
theorem batch_retains_error_rows :
    (∀ (pre : List XmlPayload) (x : XmlPayload) (post : List XmlPayload),
        processBatch (pre ++ x :: post) =
          processBatch pre ++ processOne x :: processBatch post) ∧
    (∀ b : List XmlPayload, (processBatch b).length = b.length) ∧
    (∀ (nm e : String),
        processOne (nm, .error e) =
          { xmlFileName := nm
            xmlStem := normalize_name nm
            xmlStemRaw := splitextStemStr (basenameStr nm)
            uuid := ""
            rfcEmisor := ""
            totalImpuestos := 0
            totalComprobante := .numVal 0
            currency := "MXN"
            expenseType := "Miscellaneous"
            fecha := (1970, 1, 1)
            notas := some ("Parse error: " ++ e) }) :=
  ⟨fun pre x post => by simp [processBatch],
   fun b => by simp [processBatch],
   fun nm e => rfl⟩

/-! ## Claim C9: spreadsheet validation ranges -/

/-- A placeholder export row (values irrelevant to the validation
geometry). -/
def demoExportRow : ExportRow :=
  { noVdr := "01", uuid := "", rfcEmisor := "", totalImpuestos := 0
    totalComprobante := "0", expenseType := "Miscellaneous", currency := "MXN" }

/-- A two-row export frame. -/
def demoExportDf : List ExportRow :=
  [demoExportRow, { demoExportRow with noVdr := "02" }]

/-- C9 counterexample: with two data rows the validation ranges end at
worksheet row `5 + max 2 50 = 55`, only 49 rows past the last data row
(row 6) — not at least 50 as claimed. -/
theorem excel_validation_margin_counterexample :
    ¬ ∀ v ∈ excelValidations demoExportDf, lastDataRow demoExportDf + 50 ≤ v.lastRow := by
  decide

/-- C9 amended: for every input record set the three validation rules
(category two-value list, currency two-value list, identifier length
exactly 36) cover rows `5 .. 5 + max(rowCount, 50)` — always strictly
past the last data row, but at least 50 rows past it only when there is
at most one data row. -/
theorem excel_validation_ranges (df : List ExportRow) :
    (excelValidations df).map (fun v => (v.firstRow, v.firstCol, v.lastRow, v.rule)) =
      [(5, 5, 5 + max (excelBodyCount df) 50, VRule.listRule ["Miscellaneous", "Gasoline"]),
       (5, 6, 5 + max (excelBodyCount df) 50, VRule.listRule ["MXN", "USD"]),
       (5, 1, 5 + max (excelBodyCount df) 50, VRule.lengthEqRule 36)] ∧
    (∀ v ∈ excelValidations df, lastDataRow df < v.lastRow) ∧
    (excelBodyCount df ≤ 1 →
      ∀ v ∈ excelValidations df, lastDataRow df + 50 ≤ v.lastRow) := by
  have hm : 1 ≤ excelBodyCount df := by
    cases df <;> simp [excelBodyCount]
  refine ⟨by simp [excelValidations], ?_, ?_⟩
  · intro v hv
    have h50 : 50 ≤ max (excelBodyCount df) 50 := le_max_right _ _
    have hcnt : excelBodyCount df ≤ max (excelBodyCount df) 50 := le_max_left _ _
    simp [excelValidations] at hv
    rcases hv with h | h | h <;> subst h <;> simp [lastDataRow] <;> omega
  · intro h1 v hv
    have hmax : max (excelBodyCount df) 50 = 50 := max_eq_right (by omega)
    simp [excelValidations] at hv
    rcases hv with h | h | h <;> subst h <;> simp [lastDataRow, hmax] <;> omega

/-- Witness for C9's amended hypotheses at the empty record set: the
single-placeholder-row case where the 50-row margin does hold. -/
theorem excel_validation_ranges_witness :
    lastDataRow [] + 50 ≤
      (DataValidation.mk 5 5 55 5 (VRule.listRule ["Miscellaneous", "Gasoline"])).lastRow :=
  (excel_validation_ranges []).2.2 (by decide) _ (by decide)

/-! ## Claim C1: namespace-variant acceptance -/

/-- C1 (code bug): `parse_cfdi` resolves all `cfdi:` lookups through
the single URI `ns.get(ckey, ...)` — the misspelled `gobmx/cfd/3` for
version 3.3 and the canonical `gob.mx/cfd/4` for version 4.0 — so the
`_alt` table entries are never consulted.  A 3.3 document in the
canonical official namespace (and a 4.0 document in the misspelled
variant) has its issuer and tax elements missed and defaulted, even
though the element carrying `Rfc="AAA010101AAA"` is present, while the
complementary spellings are extracted. -/
theorem namespace_alt_spelling_defaults :
    cnsOf doc33canonical = uri33misspelled ∧
    (parse_cfdi doc33canonical).rfcEmisor = "" ∧
    (parse_cfdi doc33canonical).totalImpuestos = 0 ∧
    (∃ e ∈ descendants doc33canonical, attrGet e "Rfc" = some "AAA010101AAA") ∧
    cnsOf doc40misspelled = uri40canonical ∧
    (parse_cfdi doc40misspelled).rfcEmisor = "" ∧
    (parse_cfdi doc40misspelled).totalImpuestos = 0 ∧
    (parse_cfdi doc33misspelled).rfcEmisor = "AAA010101AAA" ∧
    (parse_cfdi doc40canonical).rfcEmisor = "AAA010101AAA" := by
  decide

/-! ## Claim C4: which upload wins on a normalized-key collision -/

/-- Lookup on the empty dict. -/
theorem dictGet?_nil {β : Type} (k : String) : dictGet? ([] : List (String × β)) k = none :=
  rfl

/-- Lookup on a cons cell. -/
theorem dictGet?_cons {β : Type} (a1 : String) (a2 : β) (t : List (String × β)) (k : String) :
    dictGet? ((a1, a2) :: t) k = if a1 = k then some a2 else dictGet? t k := by
  by_cases h : a1 = k
  · simp [dictGet?, List.find?, h]
  · have hb : (a1 == k) = false := beq_eq_false_iff_ne.mpr h
    simp [dictGet?, List.find?, hb, h]

/-- Unfolding of `dictInsert` on a cons cell with a propositional
test. -/
theorem dictInsert_cons {β : Type} (a1 : String) (a2 v : β) (t : List (String × β))
    (k : String) :
    dictInsert ((a1, a2) :: t) k v =
      if a1 = k then (k, v) :: t else (a1, a2) :: dictInsert t k v := by
  by_cases h : a1 = k <;> simp [dictInsert, h]

/-- Lookup after a dict assignment: the assigned key reads back the new
value, other keys are untouched. -/
theorem dictGet?_insert {β : Type} (m : List (String × β)) (k k' : String) (v : β) :
    dictGet? (dictInsert m k v) k' = if k' = k then some v else dictGet? m k' := by
  induction m with
  | nil =>
    show dictGet? [(k, v)] k' = _
    rw [dictGet?_cons]
    by_cases h : k = k'
    · simp [h]
    · have h' : ¬ (k' = k) := fun e => h e.symm
      simp [h, h']
  | cons a t ih =>
    obtain ⟨a1, a2⟩ := a
    rw [dictInsert_cons]
    by_cases h1 : a1 = k
    · subst h1
      rw [if_pos rfl, dictGet?_cons, dictGet?_cons]
      by_cases h2 : a1 = k'
      · simp [h2]
      · have h2' : ¬ (k' = a1) := fun e => h2 e.symm
        simp [h2, h2']
    · rw [if_neg h1, dictGet?_cons, ih, dictGet?_cons]
      by_cases h2 : a1 = k'
      · have h3 : ¬ (k' = k) := fun e => h1 (h2.trans e)
        simp [h2, h3]
      · simp [h2]

/-- Folding dict assignments keyed by `normalize_name` over the uploads
in order: the value read back at any key is that of the last upload
normalizing to it. -/
theorem foldlInsert_get {β : Type} (val : String × String → β)
    (ups : List (String × String)) (k : String) :
    dictGet? (ups.foldl (fun m p => dictInsert m (normalize_name p.1) (val p)) []) k =
      ((ups.filter (fun p => normalize_name p.1 == k)).getLast?).map val := by
  induction ups using List.reverseRecOn with
  | nil => rfl
  | append_singleton l p ih =>
    rw [List.foldl_append, List.foldl_cons, List.foldl_nil, dictGet?_insert,
      List.filter_append]
    by_cases h : normalize_name p.1 = k
    · simp [h]
    · have h' : ¬ (k = normalize_name p.1) := fun e => h e.symm
      simp [h, h', ih]

/-- C4 amended: when several uploaded scanned files normalize to the
same key, the LAST upload in upload order wins — each later
`pdf_map[nstem] = ...` assignment overwrites the earlier bytes and
display name (src/app.py lines 331-338 and 395-402). -/
theorem pdf_map_last_upload_wins (ups : List (String × String)) (k : String) :
    dictGet? (buildPdfMap ups) k =
      ((ups.filter (fun p => normalize_name p.1 == k)).getLast?).map (fun p => p.2) ∧
    dictGet? (buildPdfNameLookup ups) k =
      ((ups.filter (fun p => normalize_name p.1 == k)).getLast?).map
        (fun p => basenameStr p.1) :=
  ⟨foldlInsert_get (fun p => p.2) ups k,
   foldlInsert_get (fun p => basenameStr p.1) ups k⟩

/-- Two uploads whose names normalize to the same key but carry
different bytes. -/
def demoUps : List (String × String) :=
  [("Factura 7.pdf", "BYTES-FIRST"), ("factura-7.PDF", "BYTES-SECOND")]

/-- C4 counterexample: for two same-key uploads the matcher returns the
second upload's name and the map holds the second upload's bytes — not
the first encountered in upload order as claimed. -/
theorem pdf_map_first_wins_counterexample :
    normalize_name "Factura 7.pdf" = normalize_name "factura-7.PDF" ∧
    dictGet? (buildPdfMap demoUps) "factura-7" = some "BYTES-SECOND" ∧
    dictGet? (buildPdfMap demoUps) "factura-7" ≠ some "BYTES-FIRST" ∧
    pdfNameForRow demoUps "factura-7" "" = "factura-7.PDF" := by
  decide

/-! ## Claim C2: package build with zero uploaded scans -/

/-- The missing-PDF warning detail a row contributes when no upload
matches it (src/app.py line 443); `none` when the row number is
blank. -/
def missingDetail (r : PkgRow) : Option String :=
  let rn := stripWsStr (pyOr r.noVdr "")
  if rn = "" then none
  else some (rn ++ " (expected stem ~ '" ++
    normalize_name (splitextStemStr (basenameStr r.xmlFileName)) ++ "')")

/-- With an empty PDF map a package-loop step only ever appends the
row's missing-PDF detail. -/
theorem pkgStep_nil (acc : List (String × String) × List String) (r : PkgRow) :
    pkgStep [] acc r = (acc.1, acc.2 ++ (missingDetail r).toList) := by
  unfold pkgStep missingDetail
  by_cases h : stripWsStr (pyOr r.noVdr "") = ""
  · simp [h, dictGet?_nil]
  · by_cases hu : pyLowerStr (pyOr r.uuid "") ≠ "" <;>
      simp [h, hu, dictGet?_nil, List.find?]

/-- Folding the package loop over any rows with an empty PDF map keeps
the entries untouched and appends exactly the missing details. -/
theorem pkgFold_nil (rows : List PkgRow) (acc : List (String × String) × List String) :
    rows.foldl (pkgStep []) acc = (acc.1, acc.2 ++ rows.filterMap missingDetail) := by
  induction rows generalizing acc with
  | nil => simp
  | cons r t ih =>
    rw [List.foldl_cons, pkgStep_nil, ih]
    cases h : missingDetail r <;> simp [List.filterMap_cons, h]

/-- C2 amended: requesting the archive build with zero uploaded scanned
documents does NOT fail — there is no `MissingUploadSet` hard stop in
the source.  The ZIP is still produced, containing exactly the
spreadsheet and the README manifest (and no PDFs), and every row with a
nonempty sequence label is reported in the non-fatal missing-PDF
warning list. -/
theorem package_zero_uploads_succeeds (rows : List PkgRow) (xlsxBytes : String) :
    (packageEntries rows [] xlsxBytes).1 =
      [("SUBMISSION_IVA_FORM.xlsx", xlsxBytes), ("README.txt", readmeText)] ∧
    (packageEntries rows [] xlsxBytes).2 = rows.filterMap missingDetail := by
  have hfold :=
    pkgFold_nil rows (([("SUBMISSION_IVA_FORM.xlsx", xlsxBytes)] : List (String × String)),
      ([] : List String))
  constructor
  · show (rows.foldl (pkgStep []) ([("SUBMISSION_IVA_FORM.xlsx", xlsxBytes)], [])).1 ++
      [("README.txt", readmeText)] = _
    rw [hfold]
    simp
  · show (rows.foldl (pkgStep []) ([("SUBMISSION_IVA_FORM.xlsx", xlsxBytes)], [])).2 = _
    rw [hfold]
    simp

/-- One row requesting a package with no uploads. -/
def demoPkgRows : List PkgRow :=
  [{ noVdr := "01", xmlFileName := "factura-7.xml"
     uuid := "12345678-ABCD-ABCD-ABCD-123456789012" }]

/-- C2 counterexample: with zero uploaded scans the archive IS produced
(the claim says the build fails with a hard stop and no archive): the
entry list is nonempty, contains the spreadsheet, and the only effect
is a missing-PDF warning detail for the row. -/
theorem package_zero_uploads_counterexample :
    (packageEntries demoPkgRows [] "XLSX-BYTES").1 ≠ [] ∧
    ("SUBMISSION_IVA_FORM.xlsx", "XLSX-BYTES") ∈ (packageEntries demoPkgRows [] "XLSX-BYTES").1 ∧
    (packageEntries demoPkgRows [] "XLSX-BYTES").2 = ["01 (expected stem ~ 'factura-7')"] := by
  decide

/-! ## Claim C7: the IVA sum -/

/-- The accumulation loop, with its accumulator made explicit, equals
the accumulator plus the sum of the parsable amounts of exactly the
IVA-coded entries. -/
theorem ivaFold (l : List XmlElem) (acc : ℚ) :
    l.foldl
      (fun acc t =>
        if trasIsIva t then
          match importeVal t with
          | some v => acc + v
          | none => acc
        else acc) acc =
      acc + ((l.filter trasIsIva).filterMap importeVal).sum := by
  induction l generalizing acc with
  | nil => simp
  | cons t ts ih =>
    rw [List.foldl_cons]
    by_cases h : trasIsIva t
    · cases hv : importeVal t with
      | some v =>
        simp only [h, if_true, hv]
        rw [ih, List.filter_cons_of_pos h, List.filterMap_cons_some hv,
          List.sum_cons]
        ring
      | none =>
        simp only [h, if_true, hv]
        rw [ih, List.filter_cons_of_pos h, List.filterMap_cons_none hv]
    · rw [if_neg h, ih, List.filter_cons_of_neg h]

/-- C7: the parsed tax amount equals the sum of the parsable `Importe`
attributes over exactly the tax-transfer entries whose `Impuesto` code
is `"002"` or `"2"` — other codes are ignored entirely, unparsable
amounts are skipped without aborting the sum — and the sum is invariant
under any permutation of the entries. -/
theorem iva_sum_filters_entries :
    (∀ root : XmlElem,
        (parse_cfdi root).totalImpuestos =
          (((trasladoElems root).filter trasIsIva).filterMap importeVal).sum) ∧
    (∀ l l' : List XmlElem, l.Perm l' → ivaSumElems l = ivaSumElems l') := by
  constructor
  · intro root
    show ivaSumElems (trasladoElems root) = _
    unfold ivaSumElems
    rw [ivaFold, zero_add]
  · intro l l' hp
    unfold ivaSumElems
    rw [ivaFold, ivaFold, zero_add, zero_add]
    exact ((hp.filter trasIsIva).filterMap importeVal).sum_eq

/-- A 16.00 IVA entry. -/
def trasladoA : XmlElem :=
  { tag := qual uri33misspelled "Traslado"
    attrs := [("Impuesto", "002"), ("Importe", "16.00")]
    children := [] }

/-- An 8.50 IVA entry with the unpadded code. -/
def trasladoB : XmlElem :=
  { tag := qual uri33misspelled "Traslado"
    attrs := [("Impuesto", "2"), ("Importe", "8.50")]
    children := [] }

/-- Witness for C7 at concrete entries: the permutation hypothesis is
discharged on a two-element swap. -/
theorem iva_sum_filters_entries_witness :
    ivaSumElems [trasladoA, trasladoB] = ivaSumElems [trasladoB, trasladoA] :=
  iva_sum_filters_entries.2 _ _ (List.Perm.swap trasladoB trasladoA [])

/-! ## Claim C6: idempotence of normalize_name

The proof characterizes the output of the pipeline: every character is
in the alphabet `[0-9a-z-]`, no two dashes are adjacent, and the ends
are not dashes; each pipeline stage is then shown to fix such lists. -/

/-- The output alphabet of `normalize_name`: ASCII lowercase
alphanumerics and the dash. -/
def goodChar (c : Char) : Bool :=
  isAlnumLower c || c == '-'

/-- No two adjacent dashes anywhere in the list. -/
def noDD : List Char → Bool
  | [] => true
  | [_] => true
  | a :: b :: t => !(a == '-' && b == '-') && noDD (b :: t)

/-- Unfolding `noDD` on two heads. -/
theorem noDD_cons2 (a b : Char) (t : List Char) :
    noDD (a :: b :: t) = true ↔ (¬(a = '-' ∧ b = '-') ∧ noDD (b :: t) = true) := by
  show (!(a == '-' && b == '-') && noDD (b :: t)) = true ↔ _
  rw [Bool.and_eq_true, Bool.not_eq_true']
  rw [Bool.and_eq_false_iff]
  simp [beq_eq_false_iff_ne]
  tauto

/-- The tail of a `noDD` list is `noDD`. -/
theorem noDD_tail {a : Char} {t : List Char} (h : noDD (a :: t) = true) :
    noDD t = true := by
  cases t with
  | nil => rfl
  | cons b t' => exact ((noDD_cons2 a b t').mp h).2

/-- A `noDD` list whose head is a dash has a non-dash second
character. -/
theorem noDD_head {a : Char} {t : List Char} (h : noDD (a :: t) = true) :
    ∀ b, t.head? = some b → ¬(a = '-' ∧ b = '-') := by
  cases t with
  | nil => intro b hb; cases hb
  | cons b t' =>
    intro b' hb'
    cases hb'
    exact ((noDD_cons2 a b t').mp h).1

/-- Build `noDD` from the pair condition and the tail. -/
theorem noDD_build {a : Char} {t : List Char} (ht : noDD t = true)
    (hp : ∀ b, t.head? = some b → ¬(a = '-' ∧ b = '-')) :
    noDD (a :: t) = true := by
  cases t with
  | nil => rfl
  | cons b t' => exact (noDD_cons2 a b t').mpr ⟨hp b rfl, ht⟩

/-- The numeric ranges of the alphabet. -/
theorem goodChar_ranges {c : Char} (h : goodChar c = true) :
    c.toNat = 45 ∨ (48 ≤ c.toNat ∧ c.toNat ≤ 57) ∨ (97 ≤ c.toNat ∧ c.toNat ≤ 122) := by
  rw [goodChar, Bool.or_eq_true, beq_iff_eq] at h
  rcases h with h | h
  · rw [isAlnumLower, Bool.or_eq_true, Bool.and_eq_true, Bool.and_eq_true] at h
    simp only [decide_eq_true_eq] at h
    tauto
  · subst h
    left
    rfl

/-- Alphanumerics are in the alphabet. -/
theorem alnum_good {c : Char} (h : isAlnumLower c = true) : goodChar c = true := by
  rw [goodChar, Bool.or_eq_true]
  exact Or.inl h

/-- The dash is in the alphabet. -/
theorem dash_good : goodChar '-' = true := by decide

/-- An alphanumeric is not the dash. -/
theorem alnum_ne_dash {c : Char} (h : isAlnumLower c = true) : ¬ c = '-' := by
  intro e
  subst e
  exact absurd h (by decide)

/-- A non-alphanumeric alphabet character is the dash. -/
theorem good_dash_of_not_alnum {c : Char} (hg : goodChar c = true)
    (h : ¬ isAlnumLower c = true) : c = '-' := by
  rw [goodChar, Bool.or_eq_true, beq_iff_eq] at hg
  tauto

/-- Alphabet characters are not dots. -/
theorem good_not_dot {c : Char} (h : goodChar c = true) : ¬ c = '.' := by
  intro e
  have : c.toNat = 46 := by rw [e]; rfl
  rcases goodChar_ranges h with h' | h' | h' <;> omega

/-- Alphabet characters are not slashes. -/
theorem good_not_slash {c : Char} (h : goodChar c = true) : (c == '/') = false := by
  apply beq_eq_false_iff_ne.mpr
  intro e
  have : c.toNat = 47 := by rw [e]; rfl
  rcases goodChar_ranges h with h' | h' | h' <;> omega

/-- Alphabet characters are not whitespace. -/
theorem good_not_ws {c : Char} (h : goodChar c = true) : isPyWs c = false := by
  rcases goodChar_ranges h with h' | h' | h' <;>
    · rw [isPyWs]
      simp only [Bool.or_eq_false_iff, beq_eq_false_iff_ne]
      omega

/-- `pyLowerChar` fixes the alphabet (it only moves capitals). -/
theorem good_lower_fix {c : Char} (h : goodChar c = true) : pyLowerChar c = c := by
  have h1 : (65 ≤ c.toNat && c.toNat ≤ 90) = false := by
    simp only [Bool.and_eq_false_iff, decide_eq_false_iff_not, not_le]
    rcases goodChar_ranges h with h' | h' | h' <;> omega
  have h2 : ¬ c = 'Å' := by
    intro e
    have : c.toNat = 197 := by rw [e]; rfl
    rcases goodChar_ranges h with h' | h' | h' <;> omega
  have h3 : ¬ c = 'É' := by
    intro e
    have : c.toNat = 201 := by rw [e]; rfl
    rcases goodChar_ranges h with h' | h' | h' <;> omega
  have h4 : ¬ c = 'Ñ' := by
    intro e
    have : c.toNat = 209 := by rw [e]; rfl
    rcases goodChar_ranges h with h' | h' | h' <;> omega
  rw [pyLowerChar, h1, if_neg h2, if_neg h3, if_neg h4]
  rfl

/-- `nfkcChar` fixes the alphabet (its compatibility table only touches
non-ASCII characters). -/
theorem good_nfkc_fix {c : Char} (h : goodChar c = true) : nfkcChar c = [c] := by
  have h1 : ¬ c = 'ﬁ' := by
    intro e
    have : c.toNat = 64257 := by rw [e]; rfl
    rcases goodChar_ranges h with h' | h' | h' <;> omega
  have h2 : ¬ c = Char.ofNat 0x212B := by
    intro e
    have : c.toNat = 8491 := by rw [e]; rfl
    rcases goodChar_ranges h with h' | h' | h' <;> omega
  have h3 : ¬ c = '²' := by
    intro e
    have : c.toNat = 178 := by rw [e]; rfl
    rcases goodChar_ranges h with h' | h' | h' <;> omega
  rw [nfkcChar, if_neg h1, if_neg h2, if_neg h3]

/-- Membership survives `dropWhile` backwards. -/
theorem mem_of_mem_dropWhileC (p : Char → Bool) (l : List Char) :
    ∀ c ∈ l.dropWhile p, c ∈ l := by
  induction l with
  | nil => intro c hc; cases hc
  | cons a t ih =>
    intro c hc
    rw [List.dropWhile_cons] at hc
    by_cases h : p a = true
    · rw [if_pos h] at hc
      exact List.mem_cons_of_mem a (ih c hc)
    · rw [if_neg h] at hc
      exact hc

/-- Membership survives `dropEndWhile` backwards. -/
theorem mem_of_mem_dropEndWhile (p : Char → Bool) (l : List Char) :
    ∀ c ∈ dropEndWhile p l, c ∈ l := by
  induction l with
  | nil => intro c hc; cases hc
  | cons a t ih =>
    intro c hc
    rw [dropEndWhile] at hc
    by_cases h : (dropEndWhile p t).isEmpty && p a
    · rw [if_pos h] at hc
      cases hc
    · rw [if_neg h] at hc
      rcases List.mem_cons.mp hc with h' | h'
      · exact h' ▸ List.mem_cons_self a t
      · exact List.mem_cons_of_mem a (ih c h')

/-- The head surviving `dropWhile` fails the predicate. -/
theorem head?_dropWhileC (p : Char → Bool) (l : List Char) :
    ∀ c, (l.dropWhile p).head? = some c → p c = false := by
  induction l with
  | nil => intro c hc; cases hc
  | cons a t ih =>
    intro c hc
    rw [List.dropWhile_cons] at hc
    by_cases h : p a = true
    · rw [if_pos h] at hc
      exact ih c hc
    · rw [if_neg h] at hc
      cases hc
      exact Bool.eq_false_iff.mpr h

/-- `dropEndWhile` keeps the head when the result is nonempty. -/
theorem head?_dropEndWhile (p : Char → Bool) (l : List Char)
    (h : dropEndWhile p l ≠ []) : (dropEndWhile p l).head? = l.head? := by
  cases l with
  | nil => rfl
  | cons a t =>
    rw [dropEndWhile] at h ⊢
    by_cases hc : (dropEndWhile p t).isEmpty && p a
    · rw [if_pos hc] at h
      exact absurd rfl h
    · rw [if_neg hc]
      rfl

/-- The last character surviving `dropEndWhile` fails the predicate. -/
theorem getLast?_dropEndWhile (p : Char → Bool) (l : List Char) :
    ∀ c, (dropEndWhile p l).getLast? = some c → p c = false := by
  induction l with
  | nil => intro c hc; cases hc
  | cons a t ih =>
    intro c hc
    rw [dropEndWhile] at hc
    by_cases h : (dropEndWhile p t).isEmpty && p a
    · rw [if_pos h] at hc
      cases hc
    · rw [if_neg h] at hc
      cases hr : dropEndWhile p t with
      | nil =>
        rw [hr] at hc h
        simp only [List.getLast?_singleton, Option.some.injEq] at hc
        subst hc
        simp only [List.isEmpty_nil, Bool.true_and] at h
        exact Bool.eq_false_iff.mpr h
      | cons b r' =>
        rw [hr] at hc
        rw [List.getLast?_cons_cons] at hc
        exact ih c (hr ▸ hc)

/-- A list whose head fails `p` is fixed by `dropWhile`. -/
theorem dropWhile_fixC (p : Char → Bool) (l : List Char)
    (h : ∀ c, l.head? = some c → p c = false) : l.dropWhile p = l := by
  cases l with
  | nil => rfl
  | cons a t =>
    rw [List.dropWhile_cons, if_neg]
    rw [h a rfl]
    simp

/-- A list whose last character fails `p` is fixed by
`dropEndWhile`. -/
theorem dropEndWhile_fixC (p : Char → Bool) (l : List Char)
    (h : ∀ c, l.getLast? = some c → p c = false) : dropEndWhile p l = l := by
  induction l with
  | nil => rfl
  | cons a t ih =>
    cases t with
    | nil =>
      rw [dropEndWhile, dropEndWhile]
      have := h a rfl
      simp [this]
    | cons b t' =>
      have ht : dropEndWhile p (b :: t') = b :: t' := by
        apply ih
        intro c hc
        exact h c (by rw [List.getLast?_cons_cons]; exact hc)
      rw [dropEndWhile, ht]
      simp

/-- The head of a list is a member. -/
theorem head?_memC (l : List Char) : ∀ c, l.head? = some c → c ∈ l := by
  cases l with
  | nil => intro c hc; cases hc
  | cons a t =>
    intro c hc
    cases hc
    exact List.mem_cons_self a t

/-- The last element of a list is a member. -/
theorem getLast?_memC (l : List Char) : ∀ c, l.getLast? = some c → c ∈ l := by
  induction l with
  | nil => intro c hc; cases hc
  | cons a t ih =>
    intro c hc
    cases t with
    | nil =>
      simp only [List.getLast?_singleton, Option.some.injEq] at hc
      exact hc ▸ List.mem_cons_self a []
    | cons b t' =>
      rw [List.getLast?_cons_cons] at hc
      exact List.mem_cons_of_mem a (ih c hc)

/-- `dropWhile` preserves `noDD`. -/
theorem noDD_dropWhileC (p : Char → Bool) (l : List Char) (h : noDD l = true) :
    noDD (l.dropWhile p) = true := by
  induction l with
  | nil => exact h
  | cons a t ih =>
    rw [List.dropWhile_cons]
    by_cases hp : p a = true
    · rw [if_pos hp]
      exact ih (noDD_tail h)
    · rw [if_neg hp]
      exact h

/-- `dropEndWhile` preserves `noDD`. -/
theorem noDD_dropEndWhile (p : Char → Bool) (l : List Char) (h : noDD l = true) :
    noDD (dropEndWhile p l) = true := by
  induction l with
  | nil => exact h
  | cons a t ih =>
    rw [dropEndWhile]
    by_cases hc : (dropEndWhile p t).isEmpty && p a
    · rw [if_pos hc]; rfl
    · rw [if_neg hc]
      apply noDD_build (ih (noDD_tail h))
      intro b hb
      have hne : dropEndWhile p t ≠ [] := by
        intro e
        rw [e] at hb
        cases hb
      rw [head?_dropEndWhile p t hne] at hb
      exact noDD_head h b hb

/-- Every character the run-collapsing substitution emits is in the
output alphabet. -/
theorem collapse_mem (l : List Char) :
    (∀ c ∈ collapseGo l, goodChar c = true) ∧
    (∀ c ∈ collapseSkip l, goodChar c = true) := by
  induction l with
  | nil =>
    refine ⟨?_, ?_⟩ <;> intro c hc <;> cases hc
  | cons a t ih =>
    constructor
    · intro c hc
      rw [collapseGo] at hc
      by_cases h : isAlnumLower a = true
      · rw [if_pos h] at hc
        rcases List.mem_cons.mp hc with h' | h'
        · exact h' ▸ alnum_good h
        · exact ih.1 c h'
      · rw [if_neg h] at hc
        rcases List.mem_cons.mp hc with h' | h'
        · exact h' ▸ dash_good
        · exact ih.2 c h'
    · intro c hc
      rw [collapseSkip] at hc
      by_cases h : isAlnumLower a = true
      · rw [if_pos h] at hc
        rcases List.mem_cons.mp hc with h' | h'
        · exact h' ▸ alnum_good h
        · exact ih.1 c h'
      · rw [if_neg h] at hc
        exact ih.2 c hc

/-- The substitution never emits two adjacent dashes, and the skip
state never starts its output with a dash. -/
theorem collapse_noDD (l : List Char) :
    noDD (collapseGo l) = true ∧
      (noDD (collapseSkip l) = true ∧
        ∀ c, (collapseSkip l).head? = some c → ¬ c = '-') := by
  induction l with
  | nil =>
    refine ⟨rfl, rfl, ?_⟩
    intro c hc
    cases hc
  | cons a t ih =>
    obtain ⟨ihGo, ihSkip, ihHead⟩ := ih
    constructor
    · rw [collapseGo]
      by_cases h : isAlnumLower a = true
      · rw [if_pos h]
        exact noDD_build ihGo fun b _ hab => alnum_ne_dash h hab.1
      · rw [if_neg h]
        exact noDD_build ihSkip fun b hb hab => ihHead b hb hab.2
    · rw [collapseSkip]
      by_cases h : isAlnumLower a = true
      · rw [if_pos h]
        refine ⟨noDD_build ihGo fun b _ hab => alnum_ne_dash h hab.1, ?_⟩
        intro c hc
        cases hc
        exact alnum_ne_dash h
      · rw [if_neg h]
        exact ⟨ihSkip, ihHead⟩

/-- Lists over the alphabet with no adjacent dashes (and, for the skip
state, no leading dash) are fixed points of the substitution. -/
theorem collapse_fix (l : List Char) :
    ((∀ c ∈ l, goodChar c = true) → noDD l = true → collapseGo l = l) ∧
    ((∀ c ∈ l, goodChar c = true) → noDD l = true →
      (∀ c, l.head? = some c → ¬ c = '-') → collapseSkip l = l) := by
  induction l with
  | nil => exact ⟨fun _ _ => rfl, fun _ _ _ => rfl⟩
  | cons a t ih =>
    constructor
    · intro hg hdd
      have hga : goodChar a = true := hg a (List.mem_cons_self a t)
      have hgt : ∀ c ∈ t, goodChar c = true :=
        fun c hc => hg c (List.mem_cons_of_mem a hc)
      rw [collapseGo]
      by_cases h : isAlnumLower a = true
      · rw [if_pos h, ih.1 hgt (noDD_tail hdd)]
      · have ha : a = '-' := good_dash_of_not_alnum hga h
        have hd : ∀ c, t.head? = some c → ¬ c = '-' := by
          intro c hc hcd
          exact noDD_head hdd c hc ⟨ha, hcd⟩
        rw [if_neg h, ih.2 hgt (noDD_tail hdd) hd, ha]
    · intro hg hdd hhd
      have hga : goodChar a = true := hg a (List.mem_cons_self a t)
      have hgt : ∀ c ∈ t, goodChar c = true :=
        fun c hc => hg c (List.mem_cons_of_mem a hc)
      have h : isAlnumLower a = true := by
        by_contra h
        exact hhd a rfl (good_dash_of_not_alnum hga h)
      rw [collapseSkip, if_pos h, ih.1 hgt (noDD_tail hdd)]

/-- The basename fold is a pure append when no separator occurs. -/
theorem basename_foldAux (l : List Char) :
    ∀ acc, (∀ c ∈ l, (c == '/') = false) →
      l.foldl (fun acc c => if c == '/' then [] else acc ++ [c]) acc = acc ++ l := by
  induction l with
  | nil => intro acc _; simp
  | cons a t ih =>
    intro acc h
    have ha := h a (List.mem_cons_self a t)
    rw [List.foldl_cons, if_neg (by simp [ha])]
    rw [ih (acc ++ [a]) (fun c hc => h c (List.mem_cons_of_mem a hc))]
    simp

/-- Slash-free lists are fixed by `basenameC`. -/
theorem basenameC_fix (l : List Char) (h : ∀ c ∈ l, (c == '/') = false) :
    basenameC l = l := by
  rw [basenameC, basename_foldAux l [] h]
  rfl

/-- Dot-free lists do not contain a dot. -/
theorem contains_dot_false (l : List Char) (h : ∀ c ∈ l, ¬ c = '.') :
    (l.contains '.') = false := by
  induction l with
  | nil => rfl
  | cons a t ih =>
    have ha : ('.' == a) = false :=
      beq_eq_false_iff_ne.mpr fun e => h a (List.mem_cons_self a t) e.symm
    simp only [List.contains, List.elem] at ih ⊢
    rw [ha]
    exact ih fun c hc => h c (List.mem_cons_of_mem a hc)

/-- Dot-free, slash-free lists are fixed by the extension stripper. -/
theorem splitextStemC_fix (l : List Char) (hd : ∀ c ∈ l, ¬ c = '.')
    (hs : ∀ c ∈ l, (c == '/') = false) : splitextStemC l = l := by
  have hcont : ((l.dropWhile (fun c => c == '.')).contains '.') = false :=
    contains_dot_false _ fun c hc => hd c (mem_of_mem_dropWhileC _ l c hc)
  simp only [splitextStemC, basenameC_fix l hs, hcont, Bool.false_eq_true, if_false]

/-- Alphabet lists are fixed by the NFKC model. -/
theorem nfkcList_fix (l : List Char) (h : ∀ c ∈ l, goodChar c = true) :
    nfkcList l = l := by
  induction l with
  | nil => rfl
  | cons a t ih =>
    rw [nfkcList, good_nfkc_fix (h a (List.mem_cons_self a t)),
      ih fun c hc => h c (List.mem_cons_of_mem a hc)]
    rfl

/-- Alphabet lists are fixed by the lower-casing map. -/
theorem map_lower_fix (l : List Char) (h : ∀ c ∈ l, goodChar c = true) :
    l.map pyLowerChar = l := by
  induction l with
  | nil => rfl
  | cons a t ih =>
    rw [List.map_cons, good_lower_fix (h a (List.mem_cons_self a t)),
      ih fun c hc => h c (List.mem_cons_of_mem a hc)]

/-- Lists whose ends fail `p` are fixed by the two-sided strip. -/
theorem pyStripC_fix (p : Char → Bool) (l : List Char)
    (hh : ∀ c, l.head? = some c → p c = false)
    (hl : ∀ c, l.getLast? = some c → p c = false) : pyStripC p l = l := by
  rw [pyStripC, dropWhile_fixC p l hh, dropEndWhile_fixC p l hl]

/-- Every character of a pipeline output is in the alphabet. -/
theorem normPipe_good (l : List Char) : ∀ c ∈ normPipe l, goodChar c = true := by
  intro c hc
  rw [normPipe, pyStripC] at hc
  exact (collapse_mem _).1 c
    (mem_of_mem_dropWhileC _ _ c (mem_of_mem_dropEndWhile _ _ c hc))

/-- A pipeline output has no adjacent dashes. -/
theorem normPipe_noDD (l : List Char) : noDD (normPipe l) = true := by
  rw [normPipe, pyStripC]
  exact noDD_dropEndWhile _ _ (noDD_dropWhileC _ _ (collapse_noDD _).1)

/-- A pipeline output does not start with a dash. -/
theorem normPipe_head (l : List Char) :
    ∀ c, (normPipe l).head? = some c → ¬ c = '-' := by
  intro c hc
  rw [normPipe, pyStripC] at hc
  have hne :
      dropEndWhile (fun c => c == '-')
        ((collapseGo
            (pyStripC isPyWs
              ((nfkcList (splitextStemC (basenameC l))).map pyLowerChar))).dropWhile
          (fun c => c == '-')) ≠ [] := by
    intro e
    rw [e] at hc
    cases hc
  rw [head?_dropEndWhile _ _ hne] at hc
  exact beq_eq_false_iff_ne.mp (head?_dropWhileC _ _ c hc)

/-- A pipeline output does not end with a dash. -/
theorem normPipe_last (l : List Char) :
    ∀ c, (normPipe l).getLast? = some c → ¬ c = '-' := by
  intro c hc
  rw [normPipe, pyStripC] at hc
  exact beq_eq_false_iff_ne.mp (getLast?_dropEndWhile _ _ c hc)

/-- Lists in normal form — alphabet characters only, no adjacent
dashes, no dash at either end — are fixed by the whole pipeline. -/
theorem normPipe_fix (l : List Char) (hg : ∀ c ∈ l, goodChar c = true)
    (hdd : noDD l = true) (hh : ∀ c, l.head? = some c → ¬ c = '-')
    (hl : ∀ c, l.getLast? = some c → ¬ c = '-') : normPipe l = l := by
  have hslash : ∀ c ∈ l, (c == '/') = false := fun c hc => good_not_slash (hg c hc)
  have hdot : ∀ c ∈ l, ¬ c = '.' := fun c hc => good_not_dot (hg c hc)
  rw [normPipe, basenameC_fix l hslash, splitextStemC_fix l hdot hslash,
    nfkcList_fix l hg, map_lower_fix l hg,
    pyStripC_fix isPyWs l
      (fun c hc => good_not_ws (hg c (head?_memC l c hc)))
      (fun c hc => good_not_ws (hg c (getLast?_memC l c hc))),
    (collapse_fix l).1 hg hdd,
    pyStripC_fix _ l
      (fun c hc => beq_eq_false_iff_ne.mpr (hh c hc))
      (fun c hc => beq_eq_false_iff_ne.mpr (hl c hc))]

/-- C6: `normalize_name` is idempotent — for every input string,
normalizing twice equals normalizing once.  The output alphabet
`[0-9a-z-]`, with no adjacent or terminal dashes, is a fixed point of
every pipeline stage. -/
theorem normalize_name_idempotent (x : String) :
    normalize_name (normalize_name x) = normalize_name x := by
  by_cases hx : x = ""
  · subst hx
    rfl
  · have hy : normalize_name x = String.mk (normPipe x.toList) := by
      rw [normalize_name, if_neg hx]
    rw [hy]
    by_cases hnil : normPipe x.toList = []
    · rw [hnil]
      decide
    · have hne : String.mk (normPipe x.toList) ≠ "" := by
        intro h
        apply hnil
        simpa using congrArg String.data h
      rw [normalize_name, if_neg hne]
      have htl : (String.mk (normPipe x.toList)).toList = normPipe x.toList := rfl
      rw [htl, normPipe_fix _ (normPipe_good _) (normPipe_noDD _)
        (normPipe_head _) (normPipe_last _)]

end Facturarator
